import Mathlib

/-
Verification development for the package-config resolution module
(src/packit/config/package_config.py).

The Python module is shallowly embedded: Python values flowing through the
raw configuration dictionary are modelled by the inductive `RawValue`
(with Python truthiness as `RawValue.truthy`), raw documents by
association lists, and the stateful parts (the lazily memoized
`downstream_project_url` property) by explicit state passing.
Collaborator code that lives in other modules of the repository
(packit/actions.py, packit/constants.py, packit/config/sync_files_config.py,
packit/config/job_config.py, the schema validator) is modelled from the
specification; each such definition carries a doc comment saying so.
-/

namespace Packit

/-- Model of the Python values that occur in a raw configuration document:
None, strings, ints, bools, lists and string-keyed dicts (dicts are kept as
insertion-ordered association lists, as in Python 3.7). -/
inductive RawValue where
  | none
  | str (s : String)
  | int (n : Int)
  | bool (b : Bool)
  | list (xs : List RawValue)
  | dict (kvs : List (String × RawValue))

mutual

/-- Structural boolean equality on `RawValue` (Python `==` on these values). -/
def RawValue.beqFn : RawValue → RawValue → Bool
  | .none, .none => true
  | .str a, .str b => a == b
  | .int a, .int b => a == b
  | .bool a, .bool b => a == b
  | .list a, .list b => RawValue.beqListFn a b
  | .dict a, .dict b => RawValue.beqDictFn a b
  | _, _ => false

/-- Element-wise boolean equality on lists of `RawValue`. -/
def RawValue.beqListFn : List RawValue → List RawValue → Bool
  | [], [] => true
  | a :: as, b :: bs => RawValue.beqFn a b && RawValue.beqListFn as bs
  | _, _ => false

/-- Entry-wise boolean equality on association lists of `RawValue`. -/
def RawValue.beqDictFn : List (String × RawValue) → List (String × RawValue) → Bool
  | [], [] => true
  | (k, v) :: as, (l, w) :: bs =>
      k == l && RawValue.beqFn v w && RawValue.beqDictFn as bs
  | _, _ => false

end

mutual

theorem RawValue.beqFn_sound : ∀ a b : RawValue, RawValue.beqFn a b = true → a = b
  | .none, .none, _ => rfl
  | .str a, .str b, h => by
      simp only [RawValue.beqFn, beq_iff_eq] at h; exact h ▸ rfl
  | .int a, .int b, h => by
      simp only [RawValue.beqFn, beq_iff_eq] at h; exact h ▸ rfl
  | .bool a, .bool b, h => by
      simp only [RawValue.beqFn, beq_iff_eq] at h; exact h ▸ rfl
  | .list a, .list b, h => by
      simp only [RawValue.beqFn] at h
      exact congrArg RawValue.list (RawValue.beqListFn_sound a b h)
  | .dict a, .dict b, h => by
      simp only [RawValue.beqFn] at h
      exact congrArg RawValue.dict (RawValue.beqDictFn_sound a b h)

theorem RawValue.beqListFn_sound :
    ∀ a b : List RawValue, RawValue.beqListFn a b = true → a = b
  | [], [], _ => rfl
  | x :: xs, y :: ys, h => by
      simp only [RawValue.beqListFn, Bool.and_eq_true] at h
      have h1 := RawValue.beqFn_sound x y h.1
      have h2 := RawValue.beqListFn_sound xs ys h.2
      rw [h1, h2]

theorem RawValue.beqDictFn_sound :
    ∀ a b : List (String × RawValue), RawValue.beqDictFn a b = true → a = b
  | [], [], _ => rfl
  | (k, v) :: xs, (l, w) :: ys, h => by
      simp only [RawValue.beqDictFn, Bool.and_eq_true, beq_iff_eq] at h
      have h1 := RawValue.beqFn_sound v w h.1.2
      have h2 := RawValue.beqDictFn_sound xs ys h.2
      rw [h.1.1, h1, h2]

end

mutual

theorem RawValue.beqFn_refl : ∀ a : RawValue, RawValue.beqFn a a = true
  | .none => rfl
  | .str a => by simp [RawValue.beqFn]
  | .int a => by simp [RawValue.beqFn]
  | .bool a => by simp [RawValue.beqFn]
  | .list a => by simp only [RawValue.beqFn]; exact RawValue.beqListFn_refl a
  | .dict a => by simp only [RawValue.beqFn]; exact RawValue.beqDictFn_refl a

theorem RawValue.beqListFn_refl : ∀ a : List RawValue, RawValue.beqListFn a a = true
  | [] => rfl
  | x :: xs => by
      simp only [RawValue.beqListFn, Bool.and_eq_true]
      exact ⟨RawValue.beqFn_refl x, RawValue.beqListFn_refl xs⟩

theorem RawValue.beqDictFn_refl :
    ∀ a : List (String × RawValue), RawValue.beqDictFn a a = true
  | [] => rfl
  | (k, v) :: xs => by
      simp only [RawValue.beqDictFn, Bool.and_eq_true]
      exact ⟨⟨by simp, RawValue.beqFn_refl v⟩, RawValue.beqDictFn_refl xs⟩

end

instance : DecidableEq RawValue := fun a b =>
  if h : RawValue.beqFn a b = true then .isTrue (RawValue.beqFn_sound a b h)
  else .isFalse (fun he => h (he ▸ RawValue.beqFn_refl a))

/-- A raw configuration document: a Python dict decoded from YAML, modelled
as an insertion-ordered association list from string keys to values. -/
def RawDict := List (String × RawValue)

instance : DecidableEq RawDict := fun a b =>
  (inferInstanceAs (DecidableEq (List (String × RawValue)))) a b

/-- First-match lookup, the underlying operation of Python `dict.get`. -/
def RawDict.get? : RawDict → String → Option RawValue
  | [], _ => Option.none
  | kv :: rest, k => if kv.1 = k then some kv.2 else RawDict.get? rest k

/-- Python `raw_dict.get(k, default)`: the stored value when the key is
present, the default otherwise. -/
def RawDict.getD (d : RawDict) (k : String) (dflt : RawValue) : RawValue :=
  (d.get? k).getD dflt

/-- Python truthiness of a value: None, empty string, zero, False, empty
list and empty dict are falsy; everything else is truthy. -/
def RawValue.truthy : RawValue → Bool
  | .none => false
  | .str s => !(s == "")
  | .int n => !(n == 0)
  | .bool b => b
  | .list xs => !xs.isEmpty
  | .dict kvs => !kvs.isEmpty

/-- Python `a or b`: `a` when truthy, otherwise `b`. -/
def pyOr (a b : RawValue) : RawValue :=
  if a.truthy then a else b

mutual

/-- Python `repr` of a raw value (string escaping inside reprs is not
modelled; no claim depends on it). -/
def pyRepr : RawValue → String
  | .none => "None"
  | .str s => "\x27" ++ s ++ "\x27"
  | .int n => toString n
  | .bool b => if b then "True" else "False"
  | .list xs => "[" ++ String.intercalate ", " (pyReprList xs) ++ "]"
  | .dict kvs => "\x7b" ++ String.intercalate ", " (pyReprDict kvs) ++ "\x7d"

/-- Reprs of the elements of a list, in order. -/
def pyReprList : List RawValue → List String
  | [] => []
  | v :: vs => pyRepr v :: pyReprList vs

/-- Reprs of the entries of a dict, in order. -/
def pyReprDict : List (String × RawValue) → List String
  | [] => []
  | kv :: kvs => ("\x27" ++ kv.1 ++ "\x27: " ++ pyRepr kv.2) :: pyReprDict kvs

end

/-- Python `str` of a raw value, as used when a value is interpolated into
an f-string: strings render verbatim, everything else as its repr
(modulo the container cases sharing list/dict syntax with repr). -/
def pyStr : RawValue → String
  | .str s => s
  | v => pyRepr v

/-- Digit accumulator of the Python `int(str)` grammar: after a first
digit, further digits may follow, with single underscores allowed only
between two digits (Python >= 3.6). -/
def pyIntDigitsAux : Nat → List Char → Option Nat
  | acc, [] => some acc
  | acc, '_' :: c :: rest =>
      if c.isDigit then pyIntDigitsAux (acc * 10 + (c.toNat - 48)) rest
      else Option.none
  | acc, c :: rest =>
      if c.isDigit then pyIntDigitsAux (acc * 10 + (c.toNat - 48)) rest
      else Option.none

/-- Unsigned part of the Python `int(str)` grammar: at least one digit,
underscores only between digits. -/
def pyIntDigits? : List Char → Option Nat
  | [] => Option.none
  | c :: rest =>
      if c.isDigit then pyIntDigitsAux (c.toNat - 48) rest
      else Option.none

/-- Whitespace characters stripped by Python `int(str)` (ASCII subset;
Unicode whitespace is not modelled). -/
def pyIsSpace (c : Char) : Bool :=
  c == ' ' || c == '\t' || c == '\n' || c == '\r' || c == '\x0b' || c == '\x0c'

/-- Python `int(s)` on a string: strip surrounding whitespace, allow one
optional sign, then parse a digit sequence; `Option.none` models the
`ValueError` raised on anything else (ASCII digits only; Unicode digits
are not modelled). -/
def pyIntOfString (s : String) : Option Int :=
  let t := (s.toList.dropWhile pyIsSpace).reverse.dropWhile pyIsSpace |>.reverse
  match t with
  | '+' :: rest => (pyIntDigits? rest).map Int.ofNat
  | '-' :: rest => (pyIntDigits? rest).map (fun n => -(n : Int))
  | rest => (pyIntDigits? rest).map Int.ofNat

instance {ε α : Type} [DecidableEq ε] [DecidableEq α] : DecidableEq (Except ε α) :=
  fun a b =>
    match a, b with
    | .ok x, .ok y =>
        if h : x = y then .isTrue (by rw [h]) else .isFalse (by intro he; cases he; exact h rfl)
    | .error x, .error y =>
        if h : x = y then .isTrue (by rw [h]) else .isFalse (by intro he; cases he; exact h rfl)
    | .ok _, .error _ => .isFalse (by intro he; cases he)
    | .error _, .ok _ => .isFalse (by intro he; cases he)

/-- Error taxonomy of the module, as named by the specification:
`validationError` is a schema violation or unknown action identifier,
`notFound` the local-lookup total-absence failure, `parseFailure` any
other exception surfaced at a resolution boundary. -/
inductive ConfigError where
  | validationError (msg : String)
  | notFound (msg : String)
  | parseFailure (msg : String)
deriving DecidableEq

/-- Message carried by an error, used when an error is re-wrapped. -/
def ConfigError.msg : ConfigError → String
  | .validationError m => m
  | .notFound m => m
  | .parseFailure m => m

/-- Modelled from the spec: a declared `(source path, destination path)`
pair describing a file to be copied between upstream and downstream trees.
`SyncFilesItem` lives in packit/config/sync_files_config.py, which is not
under src/; the fields hold whatever Python values are put there. -/
structure SyncFilesItem where
  src : RawValue
  dest : RawValue
deriving DecidableEq

/-- Modelled from the spec: the ordered sequence of sync-file entries.
`SyncFilesConfig` lives in packit/config/sync_files_config.py, which is
not under src/; per the spec it is an ordered sequence of
(source, destination) pairs, compared order-sensitively. -/
structure SyncFilesConfig where
  files_to_sync : List SyncFilesItem
deriving DecidableEq

/-- Modelled from the spec: an opaque job descriptor parsed by a
collaborator (packit/config/job_config.py is not under src/); order is
preserved and its content is never inspected by the code under src/. -/
structure JobConfig where
  raw : RawValue
deriving DecidableEq

/-- Modelled from the spec: the job sub-parser `get_from_raw_jobs`
(packit/config/job_config.py, not under src/) turns the raw `jobs`
sequence into job descriptors, preserving order; a missing raw value
yields no jobs. -/
def get_from_raw_jobs : RawValue → List JobConfig
  | .list xs => xs.map JobConfig.mk
  | _ => []

/-- Modelled from the spec: the sync-files sub-parser
`SyncFilesConfig.get_from_dict` (packit/config/sync_files_config.py, not
under src/) turns each raw entry into a (source, destination) pair — a
bare string becomes an identical pair, a dict supplies `src` and `dest`
explicitly — preserving order and performing no deduplication. -/
def SyncFilesConfig.get_from_dict (raw : RawValue) : SyncFilesConfig :=
  match raw with
  | .list xs => SyncFilesConfig.mk (xs.filterMap (fun v =>
      match v with
      | .str s => some (SyncFilesItem.mk (.str s) (.str s))
      | .dict kvs => some (SyncFilesItem.mk (RawDict.getD kvs "src" .none)
          (RawDict.getD kvs "dest" .none))
      | _ => Option.none))
  | _ => SyncFilesConfig.mk []

/-- Modelled from the spec: the fixed production dist-git URL constant
`PROD_DISTGIT_URL` (packit/constants.py, not under src/); its exact text
is irrelevant to every claim. -/
def PROD_DISTGIT_URL : String := "https://src.fedoraproject.org/"

/-- Modelled from the spec: the fixed ordered list of recognized
configuration file names `CONFIG_FILE_NAMES` (packit/constants.py, not
under src/), probed in this order. -/
def CONFIG_FILE_NAMES : List String :=
  [".packit.yaml", ".packit.yml", ".packit.json",
   "packit.yaml", "packit.yml", "packit.json"]

/-- Modelled from the spec: converting a raw `actions` key into the closed
action-identifier set (`ActionName` in packit/actions.py, not under src/).
The closed set itself is external, so it is passed in as the explicit
parameter `actionSet`; an unrecognized key fails with the unknown-action
variant of `ConfigValidationError`, per the spec. -/
def ActionName.ofString (actionSet : List String) (a : String) :
    Except ConfigError String :=
  if a ∈ actionSet then Except.ok a
  else Except.error (ConfigError.validationError ("unknown action: " ++ a))

/-- The resolved configuration entity, mirroring the attributes set by
`PackageConfig.__init__`. Fields hold raw Python values (Python attributes
are dynamically typed); `_downstream_project_url` is the memoization cell
behind the `downstream_project_url` property, and `dist_git_clone_path`
is always None at construction. -/
structure PackageConfig where
  config_file_path : RawValue
  specfile_path : RawValue
  synced_files : SyncFilesConfig
  jobs : List JobConfig
  dist_git_namespace : RawValue
  upstream_project_url : RawValue
  upstream_package_name : RawValue
  downstream_package_name : RawValue
  dist_git_base_url : RawValue
  _downstream_project_url : RawValue
  dist_git_clone_path : RawValue
  actions : List (String × RawValue)
  upstream_ref : RawValue
  allowed_gpg_keys : RawValue
  create_pr : RawValue
  spec_source_id : RawValue
  create_tarball_command : RawValue
  current_version_command : RawValue
  upstream_tag_template : RawValue
deriving DecidableEq

/-- Embedding of `PackageConfig.__init__`: stores each argument, applying
the `x or default` truthiness defaults exactly where the source does.
Parameters are in the order of the source signature. -/
def PackageConfig.init
    (config_file_path : RawValue)
    (specfile_path : RawValue)
    (synced_files : Option SyncFilesConfig)
    (jobs : Option (List JobConfig))
    (dist_git_namespace : RawValue)
    (upstream_project_url : RawValue)
    (upstream_package_name : RawValue)
    (downstream_project_url : RawValue)
    (downstream_package_name : RawValue)
    (dist_git_base_url : RawValue)
    (create_tarball_command : RawValue)
    (current_version_command : RawValue)
    (actions : Option (List (String × RawValue)))
    (upstream_ref : RawValue)
    (allowed_gpg_keys : RawValue)
    (create_pr : RawValue)
    (spec_source_id : RawValue)
    (upstream_tag_template : RawValue) : PackageConfig where
  config_file_path := config_file_path
  specfile_path := specfile_path
  synced_files := synced_files.getD (SyncFilesConfig.mk [])
  jobs := (jobs.getD [])
  dist_git_namespace := pyOr dist_git_namespace (.str "rpms")
  upstream_project_url := upstream_project_url
  upstream_package_name := upstream_package_name
  downstream_package_name := downstream_package_name
  dist_git_base_url := pyOr dist_git_base_url (.str PROD_DISTGIT_URL)
  _downstream_project_url := downstream_project_url
  dist_git_clone_path := .none
  actions := actions.getD []
  upstream_ref := upstream_ref
  allowed_gpg_keys := allowed_gpg_keys
  create_pr := create_pr
  spec_source_id := spec_source_id
  create_tarball_command := create_tarball_command
  current_version_command := pyOr current_version_command
    (.list [.str "git", .str "describe", .str "--tags", .str "--match", .str "*"])
  upstream_tag_template := upstream_tag_template

/-- Embedding of the `dist_git_package_url` property: plain f-string
concatenation of base url, namespace, a slash, the package name and
the `.git` suffix, with no separator normalization. -/
def PackageConfig.dist_git_package_url (pc : PackageConfig) : String :=
  pyStr pc.dist_git_base_url ++ pyStr pc.dist_git_namespace ++ "/"
    ++ pyStr pc.downstream_package_name ++ ".git"

/-- Embedding of one read of the `downstream_project_url` property, with
the hidden mutation made explicit: when the memoization cell is falsy the
derived URL is computed and stored, and the (possibly updated) cell value
is returned together with the possibly updated object. -/
def PackageConfig.downstream_project_url_read (pc : PackageConfig) :
    RawValue × PackageConfig :=
  if pc._downstream_project_url.truthy then (pc._downstream_project_url, pc)
  else
    let url := RawValue.str pc.dist_git_package_url
    (url, { pc with _downstream_project_url := url })

/-- Last-occurrence lookup in an association list: the observation under
which an insertion-ordered association list behaves as a Python dict
(later assignments to a key win). -/
def lookupLast (kvs : List (String × RawValue)) (k : String) : Option RawValue :=
  match kvs with
  | [] => Option.none
  | kv :: rest =>
      match lookupLast rest k with
      | some v => some v
      | Option.none => if kv.1 = k then some kv.2 else Option.none

/-- Python `==` on two dicts represented as association lists: the same
keys map to the same values, irrespective of entry order. -/
def pyDictEq (a b : List (String × RawValue)) : Bool :=
  (a.map Prod.fst ++ b.map Prod.fst).all
    (fun k => decide (lookupLast a k = lookupLast b k))

/-- Embedding of `PackageConfig.__eq__`: field-wise comparison in source
order. The `downstream_project_url` property is read on both sides, so
the comparison is on resolved values; `actions` is compared with Python
dict equality; `config_file_path`, `dist_git_clone_path` and
`upstream_ref` do not appear in the source comparison. -/
def PackageConfig.beq (a b : PackageConfig) : Bool :=
  decide (a.specfile_path = b.specfile_path)
  && decide (a.synced_files = b.synced_files)
  && decide (a.jobs = b.jobs)
  && decide (a.dist_git_namespace = b.dist_git_namespace)
  && decide (a.upstream_project_url = b.upstream_project_url)
  && decide (a.upstream_package_name = b.upstream_package_name)
  && decide ((a.downstream_project_url_read).1 = (b.downstream_project_url_read).1)
  && decide (a.downstream_package_name = b.downstream_package_name)
  && decide (a.dist_git_base_url = b.dist_git_base_url)
  && decide (a.current_version_command = b.current_version_command)
  && decide (a.create_tarball_command = b.create_tarball_command)
  && pyDictEq a.actions b.actions
  && decide (a.allowed_gpg_keys = b.allowed_gpg_keys)
  && decide (a.create_pr = b.create_pr)
  && decide (a.spec_source_id = b.spec_source_id)
  && decide (a.upstream_tag_template = b.upstream_tag_template)

/-- Embedding of `PackageConfig.get_deprecated_key`: look the old key up
(its value only feeds a deprecation log message), look the new key up,
and fall back to the old value when the new one is falsy. -/
def get_deprecated_key (raw_dict : RawDict) (new_key_name old_key_name : String) :
    RawValue :=
  let old := raw_dict.getD old_key_name .none
  let r := raw_dict.getD new_key_name .none
  if r.truthy then r else old

/-- The `upstream_package_name` alias chain of `get_from_dict`: canonical
key, then `upstream_project_name`, then `upstream_name`, then the
externally supplied repository name, combined with Python `or`. -/
def resolveUpstreamPackageName (raw_dict : RawDict) (repo_name : RawValue) :
    RawValue :=
  pyOr (get_deprecated_key raw_dict "upstream_package_name" "upstream_project_name")
    (pyOr (get_deprecated_key raw_dict "upstream_package_name" "upstream_name")
      repo_name)

/-- The `downstream_package_name` alias chain of `get_from_dict`:
canonical key, then the legacy `package_name`, then the repository name. -/
def resolveDownstreamPackageName (raw_dict : RawDict) (repo_name : RawValue) :
    RawValue :=
  pyOr (get_deprecated_key raw_dict "downstream_package_name" "package_name")
    repo_name

/-- The specfile-path inference of `get_from_dict`: when the raw
`specfile_path` is falsy it is guessed as `<downstream_package_name>.spec`
if that name is truthy, and otherwise left as the original falsy value. -/
def resolveSpecfilePath (specfile_path downstream_package_name : RawValue) :
    RawValue :=
  if specfile_path.truthy then specfile_path
  else if downstream_package_name.truthy then
    .str (pyStr downstream_package_name ++ ".spec")
  else specfile_path

/-- Embedding of the `spec_source_id` block of `get_from_dict`: Python
`int(x)` succeeds on ints, bools and integer-like strings and the result
is rendered as `Source<N>`; a `ValueError` (non-numeric string) keeps the
value unchanged; `int` of any other type raises `TypeError`, which this
block does not catch. -/
def normalize_spec_source_id : RawValue → Except ConfigError RawValue
  | .int n => Except.ok (.str ("Source" ++ toString n))
  | .bool b => Except.ok (.str ("Source" ++ (if b then "1" else "0")))
  | .str s =>
      match pyIntOfString s with
      | some n => Except.ok (.str ("Source" ++ toString n))
      | Option.none => Except.ok (.str s)
  | v => Except.error (ConfigError.parseFailure
      ("TypeError: int() argument: " ++ pyRepr v))

/-- The actions dict comprehension of `get_from_dict`: each key is
converted through the closed action-identifier set, in insertion order,
failing at the first unrecognized key. -/
def convertActions (actionSet : List String) :
    List (String × RawValue) → Except ConfigError (List (String × RawValue))
  | [] => Except.ok []
  | (a, cmd) :: rest =>
      match ActionName.ofString actionSet a with
      | Except.error e => Except.error e
      | Except.ok an =>
          match convertActions actionSet rest with
          | Except.error e => Except.error e
          | Except.ok tl => Except.ok ((an, cmd) :: tl)

/-- Python `actions.items()`: succeeds on a dict; on any other value the
attribute access raises, modelled as a parse failure (schema-validated
documents always carry a dict here). -/
def dictItems : RawValue → Except ConfigError (List (String × RawValue))
  | .dict kvs => Except.ok kvs
  | v => Except.error (ConfigError.parseFailure
      ("AttributeError: items: " ++ pyRepr v))

/-- Embedding of `PackageConfig.get_from_dict` after schema validation
(the validator is an external collaborator invoked first; a document it
rejects never reaches this code). Lookups, alias chains, inference,
normalization and construction follow the source order; the
`dist_git_url` lookup is omitted as it only emits a log message. The
closed action-identifier set is the external parameter `actionSet`. -/
def get_from_dict (actionSet : List String) (raw_dict : RawDict)
    (config_file_path repo_name : RawValue) : Except ConfigError PackageConfig :=
  let synced_files := raw_dict.getD "synced_files" .none
  let actions := raw_dict.getD "actions" (.dict [])
  let jobs := get_from_raw_jobs (raw_dict.getD "jobs" .none)
  let create_tarball_command := raw_dict.getD "create_tarball_command" .none
  let current_version_command := raw_dict.getD "current_version_command" .none
  let upstream_package_name := resolveUpstreamPackageName raw_dict repo_name
  let upstream_project_url := raw_dict.getD "upstream_project_url" .none
  let downstream_package_name := resolveDownstreamPackageName raw_dict repo_name
  let specfile_path :=
    resolveSpecfilePath (raw_dict.getD "specfile_path" .none) downstream_package_name
  let dist_git_base_url := raw_dict.getD "dist_git_base_url" .none
  let dist_git_namespace := raw_dict.getD "dist_git_namespace" .none
  let upstream_ref := raw_dict.getD "upstream_ref" .none
  let allowed_gpg_keys := raw_dict.getD "allowed_gpg_keys" .none
  let create_pr := raw_dict.getD "create_pr" (.bool true)
  let upstream_tag_template := raw_dict.getD "upstream_tag_template" (.str "{version}")
  match normalize_spec_source_id (raw_dict.getD "spec_source_id" (.str "Source0")) with
  | Except.error e => Except.error e
  | Except.ok spec_source_id =>
      match dictItems actions with
      | Except.error e => Except.error e
      | Except.ok action_items =>
          match convertActions actionSet action_items with
          | Except.error e => Except.error e
          | Except.ok converted_actions =>
              Except.ok (PackageConfig.init
                config_file_path
                specfile_path
                (some (SyncFilesConfig.get_from_dict synced_files))
                (some jobs)
                dist_git_namespace
                upstream_project_url
                upstream_package_name
                .none
                downstream_package_name
                dist_git_base_url
                create_tarball_command
                current_version_command
                (some converted_actions)
                upstream_ref
                allowed_gpg_keys
                create_pr
                spec_source_id
                upstream_tag_template)

/-- Embedding of `PackageConfig.get_all_files_to_sync`: start from the
synced-files entries, append a specfile entry when no entry has the
specfile path as source, then a config-file entry under the same test
against the possibly extended list. The state component records the
effect on the object, modelled from the spec as unchanged: whether the
`files_to_sync` attribute of `SyncFilesConfig`
(packit/config/sync_files_config.py, not under src/) aliases mutable
internal state is decided outside src/, and the spec states PackageConfig
is immutable after construction except for the memoized URL and the
clone path. -/
def PackageConfig.get_all_files_to_sync (pc : PackageConfig) :
    SyncFilesConfig × PackageConfig :=
  let files0 := pc.synced_files.files_to_sync
  let files1 :=
    if files0.any (fun item => decide (item.src = pc.specfile_path)) then files0
    else files0 ++ [SyncFilesItem.mk pc.specfile_path pc.specfile_path]
  let files2 :=
    if files1.any (fun item => decide (item.src = pc.config_file_path)) then files1
    else files1 ++ [SyncFilesItem.mk pc.config_file_path pc.config_file_path]
  (SyncFilesConfig.mk files2, pc)

/-- Embedding of `parse_loaded_config`: delegate to `get_from_dict` with
validation enabled and re-raise any failure as one generic wrapped
exception shape. -/
def parse_loaded_config (actionSet : List String) (loaded_config : RawDict)
    (config_file_path repo_name : RawValue) : Except ConfigError PackageConfig :=
  match get_from_dict actionSet loaded_config config_file_path repo_name with
  | Except.ok pc => Except.ok pc
  | Except.error e => Except.error (ConfigError.parseFailure
      ("Cannot parse package config: " ++ e.msg))

/-- Path join performed by `config_dir / config_file_name` (separator
normalization of pathlib is irrelevant to the claims: the joined path is
only ever fed to the existence probe). -/
def joinPath (dir name : String) : String :=
  dir ++ "/" ++ name

/-- The nested directory-by-filename probe loop of
`get_local_package_config`, flattened over (directory, filename) pairs in
probe order. The filesystem is the collaborator pair `isFile`/`loadFile`
(existence probe and decode); a decode failure of a found file is fatal,
and exhausting every pair raises the not-found error. -/
def probeLocal (actionSet : List String) (isFile : String → Bool)
    (loadFile : String → Except ConfigError RawDict) (repo_name : RawValue) :
    List (String × String) → Except ConfigError PackageConfig
  | [] => Except.error (ConfigError.notFound "No packit config found.")
  | (dir, name) :: rest =>
      if isFile (joinPath dir name) then
        match loadFile (joinPath dir name) with
        | Except.error e => Except.error (ConfigError.parseFailure
            ("Cannot load package config: " ++ e.msg))
        | Except.ok loaded =>
            parse_loaded_config actionSet loaded (.str name) repo_name
      else probeLocal actionSet isFile loadFile repo_name rest

/-- Embedding of `get_local_package_config`: build the candidate
directory order from the explicit directories and the two
current-directory flags, then probe every recognized filename in every
candidate directory in order. -/
def get_local_package_config (actionSet : List String) (isFile : String → Bool)
    (loadFile : String → Except ConfigError RawDict) (cwd : String)
    (directory : List String) (repo_name : RawValue)
    ( try_local_dir_first try_local_dir_last : Bool) :
    Except ConfigError PackageConfig :=
  let directories := directory
  let directories := if try_local_dir_first then cwd :: directories else directories
  let directories := if try_local_dir_last then directories ++ [cwd] else directories
  probeLocal actionSet isFile loadFile repo_name
    (directories.flatMap (fun d => CONFIG_FILE_NAMES.map (fun n => (d, n))))

/-- Outcome of fetching and decoding one remote file: found-and-decoded
content, the distinguishable not-found signal, or a decode failure of
found content. -/
inductive FetchResult where
  | found (content : RawDict)
  | notFound
  | loadFailed (msg : String)

/-- The filename loop of `get_package_config_from_repo`: a not-found
outcome advances to the next recognized filename, a decode failure is
fatal, a decoded file is resolved; exhausting the list returns the
explicit no-configuration-present value rather than an error. -/
def probeRemote (actionSet : List String) (fetch : String → FetchResult)
    (repo_name : RawValue) :
    List String → Except ConfigError (Option PackageConfig)
  | [] => Except.ok Option.none
  | name :: rest =>
      match fetch name with
      | FetchResult.notFound => probeRemote actionSet fetch repo_name rest
      | FetchResult.loadFailed msg => Except.error (ConfigError.parseFailure
          ("Cannot load package config: " ++ msg))
      | FetchResult.found loaded =>
          (parse_loaded_config actionSet loaded (.str name) repo_name).map some

/-- Embedding of `get_package_config_from_repo`: probe the fixed
recognized filenames against the remote reference, the fetch collaborator
being the parameter `fetch` (already specialized to the reference). -/
def get_package_config_from_repo (actionSet : List String)
    (fetch : String → FetchResult) (repo_name : RawValue) :
    Except ConfigError (Option PackageConfig) :=
  probeRemote actionSet fetch repo_name CONFIG_FILE_NAMES

/-
Helper lemmas shared by the claim theorems.
-/

/-- A string with the `.git` suffix appended is never empty. -/
theorem append_git_ne_empty (s : String) : s ++ ".git" ≠ "" := by
  intro h
  have h2 := congrArg String.length h
  rw [String.length_append] at h2
  have e1 : (".git" : String).length = 4 := rfl
  have e2 : ("" : String).length = 0 := rfl
  omega

/-- A nonempty string is truthy. -/
theorem truthy_str_of_ne {s : String} (h : s ≠ "") :
    (RawValue.str s).truthy = true := by
  simp [RawValue.truthy, h]

/-- `PackageConfig.beq` is reflexive. -/
theorem PackageConfig.beq_refl (pc : PackageConfig) : PackageConfig.beq pc pc = true := by
  simp [PackageConfig.beq, pyDictEq, List.all_eq_true]

/-- Renaming every entry with one key to another key (the transformation
taking a canonical-key document to its legacy-alias form). -/
def renameKey (k k' : String) (d : RawDict) : RawDict :=
  List.map (fun kv => if kv.1 = k then (k', kv.2) else kv) d

/-- Lookups of unrelated keys are unaffected by a key renaming. -/
theorem get?_renameKey_other {k k' q : String} (hq : q ≠ k) (hq' : q ≠ k')
    (d : List (String × RawValue)) :
    RawDict.get? (renameKey k k' d) q = RawDict.get? d q := by
  induction d with
  | nil => rfl
  | cons kv rest ih =>
      by_cases hk : kv.1 = k
      · have hne1 : ¬(k' = q) := fun h => hq' h.symm
        have hne2 : ¬(kv.1 = q) := fun h => hq (h.symm.trans hk)
        simp only [renameKey, List.map_cons, if_pos hk, RawDict.get?, if_neg hne1,
          if_neg hne2]
        exact ih
      · simp only [renameKey, List.map_cons, if_neg hk, RawDict.get?]
        by_cases hkq : kv.1 = q
        · rw [if_pos hkq, if_pos hkq]
        · rw [if_neg hkq, if_neg hkq]; exact ih

/-- After renaming a key away (to a different key), the old key no longer
resolves. -/
theorem get?_renameKey_gone {k k' : String} (hkk : k ≠ k')
    (d : List (String × RawValue)) :
    RawDict.get? (renameKey k k' d) k = Option.none := by
  induction d with
  | nil => rfl
  | cons kv rest ih =>
      by_cases hk : kv.1 = k
      · have hne : ¬(k' = k) := fun h => hkk h.symm
        simp only [renameKey, List.map_cons, if_pos hk, RawDict.get?, if_neg hne]
        exact ih
      · simp only [renameKey, List.map_cons, if_neg hk, RawDict.get?, if_neg hk]
        exact ih

/-- When the target key was absent, it resolves after the renaming to
whatever the renamed key resolved to before. -/
theorem get?_renameKey_target {k k' : String}
    (d : List (String × RawValue)) (habs : RawDict.get? d k' = Option.none) :
    RawDict.get? (renameKey k k' d) k' = RawDict.get? d k := by
  induction d with
  | nil => rfl
  | cons kv rest ih =>
      simp only [RawDict.get?] at habs
      by_cases hk' : kv.1 = k'
      · rw [if_pos hk'] at habs; exact absurd habs (by simp)
      · rw [if_neg hk'] at habs
        by_cases hk : kv.1 = k
        · simp only [renameKey, List.map_cons, if_pos hk, RawDict.get?, if_pos hk]
          simp
        · simp only [renameKey, List.map_cons, if_neg hk, RawDict.get?, if_neg hk,
            if_neg hk']
          exact ih habs

/-- `getD` version of `get?_renameKey_other`. -/
theorem getD_renameKey_other {k k' q : String} (hq : q ≠ k) (hq' : q ≠ k')
    (d : List (String × RawValue)) (dflt : RawValue) :
    RawDict.getD (renameKey k k' d) q dflt = RawDict.getD d q dflt := by
  unfold RawDict.getD
  rw [get?_renameKey_other hq hq' d]

/-- `get_from_dict` only reads the raw document through a fixed set of
key lookups and the two alias chains; documents agreeing on all of them
resolve identically. -/
theorem get_from_dict_congr (S : List String) (raw raw' : RawDict) (cfp repo : RawValue)
    (h1 : RawDict.getD raw' "synced_files" .none = RawDict.getD raw "synced_files" .none)
    (h2 : RawDict.getD raw' "actions" (.dict []) = RawDict.getD raw "actions" (.dict []))
    (h3 : RawDict.getD raw' "jobs" .none = RawDict.getD raw "jobs" .none)
    (h4 : RawDict.getD raw' "create_tarball_command" .none
      = RawDict.getD raw "create_tarball_command" .none)
    (h5 : RawDict.getD raw' "current_version_command" .none
      = RawDict.getD raw "current_version_command" .none)
    (h6 : resolveUpstreamPackageName raw' repo = resolveUpstreamPackageName raw repo)
    (h7 : RawDict.getD raw' "upstream_project_url" .none
      = RawDict.getD raw "upstream_project_url" .none)
    (h8 : resolveDownstreamPackageName raw' repo = resolveDownstreamPackageName raw repo)
    (h9 : RawDict.getD raw' "specfile_path" .none = RawDict.getD raw "specfile_path" .none)
    (h10 : RawDict.getD raw' "dist_git_base_url" .none
      = RawDict.getD raw "dist_git_base_url" .none)
    (h11 : RawDict.getD raw' "dist_git_namespace" .none
      = RawDict.getD raw "dist_git_namespace" .none)
    (h12 : RawDict.getD raw' "upstream_ref" .none = RawDict.getD raw "upstream_ref" .none)
    (h13 : RawDict.getD raw' "allowed_gpg_keys" .none
      = RawDict.getD raw "allowed_gpg_keys" .none)
    (h14 : RawDict.getD raw' "create_pr" (.bool true)
      = RawDict.getD raw "create_pr" (.bool true))
    (h15 : RawDict.getD raw' "upstream_tag_template" (.str "{version}")
      = RawDict.getD raw "upstream_tag_template" (.str "{version}"))
    (h16 : RawDict.getD raw' "spec_source_id" (.str "Source0")
      = RawDict.getD raw "spec_source_id" (.str "Source0")) :
    get_from_dict S raw' cfp repo = get_from_dict S raw cfp repo := by
  simp only [get_from_dict, h1, h2, h3, h4, h5, h6, h7, h8, h9, h10, h11, h12, h13,
    h14, h15, h16]

/-- Inversion principle for a successful resolution: the three fallible
steps each succeeded and the result is the constructor applied to the
resolved field values. -/
theorem get_from_dict_shape {S : List String} {raw : RawDict} {cfp repo : RawValue}
    {pc : PackageConfig} (hok : get_from_dict S raw cfp repo = Except.ok pc) :
    ∃ sid items acts,
      normalize_spec_source_id (RawDict.getD raw "spec_source_id" (RawValue.str "Source0"))
        = Except.ok sid
      ∧ dictItems (RawDict.getD raw "actions" (RawValue.dict [])) = Except.ok items
      ∧ convertActions S items = Except.ok acts
      ∧ pc = PackageConfig.init cfp
          (resolveSpecfilePath (RawDict.getD raw "specfile_path" .none)
            (resolveDownstreamPackageName raw repo))
          (some (SyncFilesConfig.get_from_dict (RawDict.getD raw "synced_files" .none)))
          (some (get_from_raw_jobs (RawDict.getD raw "jobs" .none)))
          (RawDict.getD raw "dist_git_namespace" .none)
          (RawDict.getD raw "upstream_project_url" .none)
          (resolveUpstreamPackageName raw repo)
          .none
          (resolveDownstreamPackageName raw repo)
          (RawDict.getD raw "dist_git_base_url" .none)
          (RawDict.getD raw "create_tarball_command" .none)
          (RawDict.getD raw "current_version_command" .none)
          (some acts)
          (RawDict.getD raw "upstream_ref" .none)
          (RawDict.getD raw "allowed_gpg_keys" .none)
          (RawDict.getD raw "create_pr" (RawValue.bool true))
          sid
          (RawDict.getD raw "upstream_tag_template" (RawValue.str "{version}")) := by
  simp only [get_from_dict] at hok
  split at hok
  next e heq => exact Except.noConfusion hok
  next sid hsid =>
    split at hok
    next e heq => exact Except.noConfusion hok
    next items hitems =>
      split at hok
      next e heq => exact Except.noConfusion hok
      next acts hacts =>
        refine ⟨sid, items, acts, hsid, hitems, hacts, ?_⟩
        injection hok with h
        exact h.symm

/-- A sample resolved configuration used as the base object of concrete
counterexamples and witnesses. -/
def samplePC : PackageConfig := PackageConfig.init
  (.str "cfg.yaml") (.str "f.spec") Option.none Option.none .none .none
  (.str "foo") .none (.str "foo") (.str "https://example.com/") .none .none
  Option.none .none .none (.bool true) (.str "Source0") (.str "{version}")

/-
Claim theorems.
-/

/-- A raw document in which the canonical `upstream_package_name` key is
present (with an empty-string value) while its legacy alias carries a
nonempty value. -/
def c1raw : RawDict :=
  [("upstream_package_name", RawValue.str ""), ("upstream_project_name", RawValue.str "x")]

/-- C1 counterexample: in `c1raw` the canonical key is present in the
document, yet deprecated-key resolution returns the alias's value, not the
canonical value — presence of the canonical key does not make it win. -/
theorem deprecated_key_presence_counterexample :
    RawDict.get? c1raw "upstream_package_name" = some (RawValue.str "")
    ∧ get_deprecated_key c1raw "upstream_package_name" "upstream_project_name"
      = RawValue.str "x"
    ∧ RawValue.str "x" ≠ RawValue.str "" := by decide

/-- C1 (amended): deprecated-key resolution is decided by truthiness, not
presence: when the canonical key's looked-up value is truthy it is the
resolved value regardless of the alias, and when it is falsy (absent,
None, empty, zero or False) the alias's looked-up value is the resolved
value — so the resolution differs from canonical-only input exactly when
the canonical value is falsy and the alias resolves to something. -/
theorem deprecated_key_truthy_resolution (raw : RawDict) (new_key old_key : String) :
    ((RawDict.getD raw new_key .none).truthy = true →
      get_deprecated_key raw new_key old_key = RawDict.getD raw new_key .none)
    ∧ ((RawDict.getD raw new_key .none).truthy = false →
      get_deprecated_key raw new_key old_key = RawDict.getD raw old_key .none) := by
  unfold get_deprecated_key
  constructor <;> intro h <;> simp [h]

/-- Witness for C1: the amended theorem applied to a concrete document
with a truthy canonical value. -/
theorem deprecated_key_truthy_resolution_witness :
    get_deprecated_key [("upstream_package_name", RawValue.str "v"),
        ("upstream_project_name", RawValue.str "w")]
      "upstream_package_name" "upstream_project_name" = RawValue.str "v" :=
  ((deprecated_key_truthy_resolution
      [("upstream_package_name", RawValue.str "v"),
        ("upstream_project_name", RawValue.str "w")]
      "upstream_package_name" "upstream_project_name").1 (by decide)).trans (by decide)

/-- Two configurations differing only in `upstream_ref`. -/
def c2a : PackageConfig := { samplePC with upstream_ref := RawValue.str "v1.0" }

/-- Second of the two configurations differing only in `upstream_ref`. -/
def c2b : PackageConfig := { samplePC with upstream_ref := RawValue.str "v2.0" }

/-- C2 counterexample: two configurations with different `upstream_ref`
values (and all other fields identical) compare structurally equal, so
`config_file_path` is not the only field excluded from `__eq__`:
`upstream_ref` is excluded as well. -/
theorem structural_eq_ignores_upstream_ref :
    PackageConfig.beq c2a c2b = true ∧ c2a.upstream_ref ≠ c2b.upstream_ref := by
  decide

/-- C2 (amended): structural equality holds iff every compared field is
equal by value — `specfile_path`, `synced_files`, `jobs`,
`dist_git_namespace`, `upstream_project_url`, `upstream_package_name`,
`downstream_project_url` by resolved value, `downstream_package_name`,
`dist_git_base_url`, `current_version_command`, `create_tarball_command`,
`actions` as an order-insensitive mapping, `allowed_gpg_keys`,
`create_pr`, `spec_source_id` and `upstream_tag_template` — with
`config_file_path`, `upstream_ref` and the post-construction
`dist_git_clone_path` excluded from the comparison. -/
theorem structural_eq_fieldwise (a b : PackageConfig) :
    PackageConfig.beq a b = true ↔
      (a.specfile_path = b.specfile_path
      ∧ a.synced_files = b.synced_files
      ∧ a.jobs = b.jobs
      ∧ a.dist_git_namespace = b.dist_git_namespace
      ∧ a.upstream_project_url = b.upstream_project_url
      ∧ a.upstream_package_name = b.upstream_package_name
      ∧ (PackageConfig.downstream_project_url_read a).1
        = (PackageConfig.downstream_project_url_read b).1
      ∧ a.downstream_package_name = b.downstream_package_name
      ∧ a.dist_git_base_url = b.dist_git_base_url
      ∧ a.current_version_command = b.current_version_command
      ∧ a.create_tarball_command = b.create_tarball_command
      ∧ pyDictEq a.actions b.actions = true
      ∧ a.allowed_gpg_keys = b.allowed_gpg_keys
      ∧ a.create_pr = b.create_pr
      ∧ a.spec_source_id = b.spec_source_id
      ∧ a.upstream_tag_template = b.upstream_tag_template) := by
  simp only [PackageConfig.beq, Bool.and_eq_true, decide_eq_true_eq, and_assoc]

/-- C5: reading the full sync list is effect-free on the configuration:
the object after `get_all_files_to_sync` is the object before it, and in
particular its `synced_files` sequence is unchanged. -/
theorem get_all_files_to_sync_pure (pc : PackageConfig) :
    (PackageConfig.get_all_files_to_sync pc).2 = pc
    ∧ (PackageConfig.get_all_files_to_sync pc).2.synced_files = pc.synced_files :=
  ⟨rfl, rfl⟩

/-- C6: `spec_source_id` normalization rewrites every integer and every
integer-like string to the literal string `Source<N>` and preserves every
other string verbatim; in particular `"2"` resolves to `"Source2"`,
`"Source3"` stays `"Source3"`, and `""` stays `""`. -/
theorem spec_source_id_normalization :
    (∀ n : Int, normalize_spec_source_id (RawValue.int n)
      = Except.ok (RawValue.str ("Source" ++ toString n)))
    ∧ (∀ (s : String) (n : Int), pyIntOfString s = some n →
      normalize_spec_source_id (RawValue.str s)
        = Except.ok (RawValue.str ("Source" ++ toString n)))
    ∧ (∀ s : String, pyIntOfString s = Option.none →
      normalize_spec_source_id (RawValue.str s) = Except.ok (RawValue.str s))
    ∧ normalize_spec_source_id (RawValue.str "2") = Except.ok (RawValue.str "Source2")
    ∧ normalize_spec_source_id (RawValue.str "Source3")
      = Except.ok (RawValue.str "Source3")
    ∧ normalize_spec_source_id (RawValue.str "") = Except.ok (RawValue.str "") := by
  refine ⟨fun n => rfl, fun s n h => ?_, fun s h => ?_, by decide, by decide, by decide⟩
  · simp [normalize_spec_source_id, h]
  · simp [normalize_spec_source_id, h]

/-- Witness for C6: the integer-like-string clause applied at `"7"`. -/
theorem spec_source_id_normalization_witness :
    pyIntOfString "7" = some 7
    ∧ normalize_spec_source_id (RawValue.str "7")
      = Except.ok (RawValue.str ("Source" ++ toString (7 : Int))) :=
  ⟨by decide, spec_source_id_normalization.2.1 "7" 7 (by decide)⟩

/-- C10: when the raw document has no `spec_source_id` key at all, every
successful resolution carries the implicit default `"Source0"`. -/
theorem spec_source_id_default_source0 (S : List String) (raw : RawDict)
    (cfp repo : RawValue) (pc : PackageConfig)
    (habsent : RawDict.get? raw "spec_source_id" = Option.none)
    (hok : get_from_dict S raw cfp repo = Except.ok pc) :
    pc.spec_source_id = RawValue.str "Source0" := by
  obtain ⟨sid, items, acts, hsid, hitems, hacts, hpc⟩ := get_from_dict_shape hok
  unfold RawDict.getD at hsid
  rw [habsent] at hsid
  have hnorm : normalize_spec_source_id (Option.getD Option.none (RawValue.str "Source0"))
      = Except.ok (RawValue.str "Source0") := by decide
  rw [hnorm] at hsid
  injection hsid with h
  subst hpc
  exact h.symm

/-- Discriminator of a resolution outcome. -/
def exceptIsOk {ε α : Type} : Except ε α → Bool
  | .ok _ => true
  | .error _ => false

/-- Witness for C10: a document without `spec_source_id` resolves with the
default. -/
theorem spec_source_id_default_source0_witness :
    ∃ pc, get_from_dict [] [("specfile_path", RawValue.str "a.spec")]
        RawValue.none RawValue.none = Except.ok pc
      ∧ pc.spec_source_id = RawValue.str "Source0" := by
  have h0 : exceptIsOk (get_from_dict [] [("specfile_path", RawValue.str "a.spec")]
      RawValue.none RawValue.none) = true := by decide
  cases hok : get_from_dict [] [("specfile_path", RawValue.str "a.spec")]
      RawValue.none RawValue.none with
  | error e => rw [hok] at h0; exact absurd h0 (by simp [exceptIsOk])
  | ok pc =>
      exact ⟨pc, rfl, spec_source_id_default_source0 []
        [("specfile_path", RawValue.str "a.spec")] RawValue.none RawValue.none pc
        (by decide) hok⟩

/-- Converting an actions mapping that contains a key outside the closed
identifier set always fails, and with the unknown-action validation
error. -/
theorem convertActions_error_of_bad {S : List String}
    (items : List (String × RawValue)) (a : String) (v : RawValue)
    (hmem : (a, v) ∈ items) (hbad : a ∉ S) :
    ∃ msg, convertActions S items = Except.error (ConfigError.validationError msg) := by
  induction items with
  | nil => cases hmem
  | cons kv rest ih =>
      cases kv with
      | mk b w =>
          by_cases hk : b ∈ S
          · rcases List.mem_cons.1 hmem with heq | hrest
            · exfalso
              have hab : a = b := congrArg Prod.fst heq
              exact hbad (hab ▸ hk)
            · obtain ⟨msg, hmsg⟩ := ih hrest
              exact ⟨msg, by simp [convertActions, ActionName.ofString, hk, hmsg]⟩
          · exact ⟨"unknown action: " ++ b,
              by simp [convertActions, ActionName.ofString, hk]⟩

/-- C3: a validated raw document (its `spec_source_id` being of a type the
normalization accepts) whose actions mapping contains a key outside the
closed action-identifier set resolves to the unknown-action
`ConfigValidationError`, and no `PackageConfig` is produced. -/
theorem unknown_action_rejected (S : List String) (raw : RawDict) (cfp repo : RawValue)
    (items : List (String × RawValue)) (a : String) (v : RawValue)
    (hacts : RawDict.getD raw "actions" (RawValue.dict []) = RawValue.dict items)
    (hmem : (a, v) ∈ items) (hbad : a ∉ S)
    (hsid : ∃ sid, normalize_spec_source_id
      (RawDict.getD raw "spec_source_id" (RawValue.str "Source0")) = Except.ok sid) :
    (∃ msg, get_from_dict S raw cfp repo
      = Except.error (ConfigError.validationError msg))
    ∧ ∀ pc, get_from_dict S raw cfp repo ≠ Except.ok pc := by
  obtain ⟨sid, hsidv⟩ := hsid
  obtain ⟨msg, hmsg⟩ := convertActions_error_of_bad items a v hmem hbad
  have hmain : get_from_dict S raw cfp repo
      = Except.error (ConfigError.validationError msg) := by
    simp only [get_from_dict, hacts, hsidv]
    simp [dictItems, hmsg]
  exact ⟨⟨msg, hmain⟩, fun pc h => by rw [hmain] at h; cases h⟩

/-- Witness for C3: a document whose only action key is unknown fails with
a validation error under an empty action set. -/
theorem unknown_action_rejected_witness :
    (∃ msg, get_from_dict [] [("actions", RawValue.dict [("bad", RawValue.str "x")])]
        RawValue.none RawValue.none
      = Except.error (ConfigError.validationError msg))
    ∧ ∀ pc, get_from_dict [] [("actions", RawValue.dict [("bad", RawValue.str "x")])]
        RawValue.none RawValue.none ≠ Except.ok pc :=
  unknown_action_rejected [] [("actions", RawValue.dict [("bad", RawValue.str "x")])]
    RawValue.none RawValue.none [("bad", RawValue.str "x")] "bad" (RawValue.str "x")
    (by decide) (by decide) (by decide) ⟨RawValue.str "Source0", by decide⟩

/-- A value is not among the source paths of entries none of which carry
it as source. -/
theorem src_not_mem_of_any_false {files : List SyncFilesItem} {v : RawValue}
    (h : files.any (fun item => decide (item.src = v)) = false) :
    v ∉ List.map SyncFilesItem.src files := by
  intro hmem
  rcases List.mem_map.1 hmem with ⟨item, hitem, hsrc⟩
  rw [List.any_eq_false] at h
  have hcontra := h item hitem
  simp [hsrc] at hcontra

/-- Appending a fresh element preserves `Nodup`. -/
theorem nodup_append_singleton {α : Type} {l : List α} {x : α}
    (h : l.Nodup) (hx : x ∉ l) : (l ++ [x]).Nodup := by
  simp [List.nodup_append, h, hx]

/-- Synced-files entries repeating the source path `"a"`. -/
def c4files : List SyncFilesItem :=
  [SyncFilesItem.mk (RawValue.str "a") (RawValue.str "b"),
    SyncFilesItem.mk (RawValue.str "a") (RawValue.str "c")]

/-- Configuration whose synced files already contain two entries with the
same source path. -/
def c4pc : PackageConfig :=
  { samplePC with synced_files := SyncFilesConfig.mk c4files }

/-- C4 counterexample: a configuration whose synced-files sequence already
repeats a source path yields a `get_all_files_to_sync` result with two
entries of identical source path — the claimed universal no-duplicate
property fails. -/
theorem files_to_sync_duplicate_source :
    ¬ (List.map SyncFilesItem.src
        ((PackageConfig.get_all_files_to_sync c4pc).1.files_to_sync)).Nodup := by
  have hlist : List.map SyncFilesItem.src
      ((PackageConfig.get_all_files_to_sync c4pc).1.files_to_sync)
      = [RawValue.str "a", RawValue.str "a", RawValue.str "f.spec",
          RawValue.str "cfg.yaml"] := by decide
  rw [hlist]
  simp

/-- C4 (amended): provided the original synced-files entries already have
pairwise distinct source paths, the `get_all_files_to_sync` result has no
two entries with identical source path; and unconditionally its order is
the original entries, then a specfile entry if no entry had that source,
then a config-file entry under the same source-only test against the
possibly extended list. -/
theorem files_to_sync_augmented (pc : PackageConfig) :
    ((List.map SyncFilesItem.src pc.synced_files.files_to_sync).Nodup →
      (List.map SyncFilesItem.src
        ((PackageConfig.get_all_files_to_sync pc).1.files_to_sync)).Nodup)
    ∧ (PackageConfig.get_all_files_to_sync pc).1.files_to_sync
      = (pc.synced_files.files_to_sync
          ++ (if pc.synced_files.files_to_sync.any
                (fun item => decide (item.src = pc.specfile_path))
              then [] else [SyncFilesItem.mk pc.specfile_path pc.specfile_path]))
        ++ (if (pc.synced_files.files_to_sync
              ++ (if pc.synced_files.files_to_sync.any
                    (fun item => decide (item.src = pc.specfile_path))
                  then [] else [SyncFilesItem.mk pc.specfile_path pc.specfile_path])).any
                (fun item => decide (item.src = pc.config_file_path))
            then [] else [SyncFilesItem.mk pc.config_file_path pc.config_file_path]) := by
  constructor
  · intro h
    simp only [PackageConfig.get_all_files_to_sync]
    by_cases h1 : (pc.synced_files.files_to_sync.any
        fun item => decide (item.src = pc.specfile_path)) = true
    · rw [if_pos h1]
      by_cases h2 : (pc.synced_files.files_to_sync.any
          fun item => decide (item.src = pc.config_file_path)) = true
      · rw [if_pos h2]; exact h
      · rw [if_neg h2]
        rw [Bool.not_eq_true] at h2
        simp only [List.map_append, List.map_cons, List.map_nil]
        exact nodup_append_singleton h (src_not_mem_of_any_false h2)
    · rw [if_neg h1]
      rw [Bool.not_eq_true] at h1
      have hn1 : (List.map SyncFilesItem.src (pc.synced_files.files_to_sync
          ++ [SyncFilesItem.mk pc.specfile_path pc.specfile_path])).Nodup := by
        simp only [List.map_append, List.map_cons, List.map_nil]
        exact nodup_append_singleton h (src_not_mem_of_any_false h1)
      by_cases h2 : ((pc.synced_files.files_to_sync
          ++ [SyncFilesItem.mk pc.specfile_path pc.specfile_path]).any
            fun item => decide (item.src = pc.config_file_path)) = true
      · rw [if_pos h2]; exact hn1
      · rw [if_neg h2]
        rw [Bool.not_eq_true] at h2
        simp only [List.map_append, List.map_cons, List.map_nil] at hn1 ⊢
        exact nodup_append_singleton hn1
          (by simpa using src_not_mem_of_any_false h2)
  · simp only [PackageConfig.get_all_files_to_sync]
    by_cases h1 : (pc.synced_files.files_to_sync.any
        fun item => decide (item.src = pc.specfile_path)) = true
    · simp [h1]
      split <;> simp
    · rw [Bool.not_eq_true] at h1
      simp [h1]
      split <;> simp

/-- Witness for C4: the augmentation on a configuration with distinct
sources, applied through the amended theorem. -/
theorem files_to_sync_augmented_witness :
    (List.map SyncFilesItem.src
      ((PackageConfig.get_all_files_to_sync samplePC).1.files_to_sync)).Nodup :=
  (files_to_sync_augmented samplePC).1 (by decide)

/-- C7: with no explicitly given downstream project URL, the first read of
`downstream_project_url` is the plain concatenation of base url,
namespace, a slash, the package name and `.git`, with no separator
normalization; and after that read, further reads — even after the three
input fields change — return the same memoized value and leave the object
unchanged. -/
theorem downstream_project_url_memoized (pc : PackageConfig) (b ns name : String)
    (hmemo : pc._downstream_project_url.truthy = false)
    (hb : pc.dist_git_base_url = RawValue.str b)
    (hns : pc.dist_git_namespace = RawValue.str ns)
    (hname : pc.downstream_package_name = RawValue.str name) :
    (PackageConfig.downstream_project_url_read pc).1
      = RawValue.str (b ++ ns ++ "/" ++ name ++ ".git")
    ∧ ∀ b2 ns2 n2 : RawValue,
        (PackageConfig.downstream_project_url_read
          { (PackageConfig.downstream_project_url_read pc).2 with
              dist_git_base_url := b2, dist_git_namespace := ns2,
              downstream_package_name := n2 }).1
          = (PackageConfig.downstream_project_url_read pc).1
        ∧ (PackageConfig.downstream_project_url_read
            { (PackageConfig.downstream_project_url_read pc).2 with
                dist_git_base_url := b2, dist_git_namespace := ns2,
                downstream_package_name := n2 }).2
          = { (PackageConfig.downstream_project_url_read pc).2 with
                dist_git_base_url := b2, dist_git_namespace := ns2,
                downstream_package_name := n2 } := by
  have hurl : PackageConfig.dist_git_package_url pc = b ++ ns ++ "/" ++ name ++ ".git" := by
    unfold PackageConfig.dist_git_package_url
    rw [hb, hns, hname]
    simp [pyStr]
  have hread : PackageConfig.downstream_project_url_read pc
      = (RawValue.str (b ++ ns ++ "/" ++ name ++ ".git"),
          { pc with _downstream_project_url
              := RawValue.str (b ++ ns ++ "/" ++ name ++ ".git") }) := by
    unfold PackageConfig.downstream_project_url_read
    rw [hmemo, hurl]
    simp
  have htr : (RawValue.str (b ++ ns ++ "/" ++ name ++ ".git")).truthy = true :=
    truthy_str_of_ne (append_git_ne_empty (b ++ ns ++ "/" ++ name))
  refine ⟨by rw [hread], fun b2 ns2 n2 => ?_⟩
  rw [hread]
  constructor
  · unfold PackageConfig.downstream_project_url_read
    simp [htr]
  · unfold PackageConfig.downstream_project_url_read
    simp [htr]

/-- Witness for C7: the first read on the sample configuration computes
the concatenated URL. -/
theorem downstream_project_url_memoized_witness :
    (PackageConfig.downstream_project_url_read samplePC).1
      = RawValue.str "https://example.com/rpms/foo.git" :=
  ((downstream_project_url_memoized samplePC "https://example.com/" "rpms" "foo"
    (by decide) (by decide) (by decide) (by decide)).1).trans (by decide)

/-- A lookup whose key is absent falls back to the default. -/
theorem getD_eq_dflt_of_absent {d : List (String × RawValue)} {k : String}
    {dflt : RawValue} (h : RawDict.get? d k = Option.none) :
    RawDict.getD d k dflt = dflt := by
  unfold RawDict.getD
  rw [h]
  rfl

/-- `getD` version of `get?_renameKey_gone`. -/
theorem getD_renameKey_gone {k k' : String} (hkk : k ≠ k')
    (d : List (String × RawValue)) (dflt : RawValue) :
    RawDict.getD (renameKey k k' d) k dflt = dflt := by
  unfold RawDict.getD
  rw [get?_renameKey_gone hkk]
  rfl

/-- `getD` version of `get?_renameKey_target`. -/
theorem getD_renameKey_target {k k' : String} (d : List (String × RawValue))
    (habs : RawDict.get? d k' = Option.none) (dflt : RawValue) :
    RawDict.getD (renameKey k k' d) k' dflt = RawDict.getD d k dflt := by
  unfold RawDict.getD
  rw [get?_renameKey_target d habs]

/-- A lookup of a key unrelated to both renamings sees through the double
renaming that takes a canonical document to its aliased form. -/
theorem getD_double_rename_other (upAlias : String)
    (hA : upAlias = "upstream_project_name" ∨ upAlias = "upstream_name")
    (q : String) (raw : List (String × RawValue)) (dflt : RawValue)
    (hq1 : q ≠ "upstream_package_name") (hq2 : q ≠ "upstream_project_name")
    (hq3 : q ≠ "upstream_name") (hq4 : q ≠ "downstream_package_name")
    (hq5 : q ≠ "package_name") :
    RawDict.getD (renameKey "downstream_package_name" "package_name"
      (renameKey "upstream_package_name" upAlias raw)) q dflt
    = RawDict.getD raw q dflt := by
  have hqa : q ≠ upAlias := by rcases hA with h | h <;> rw [h] <;> assumption
  rw [getD_renameKey_other hq4 hq5, getD_renameKey_other hq1 hqa]

/-- The upstream alias chain is unaffected by the downstream renaming. -/
theorem resolveUpstream_second_rename (d : List (String × RawValue)) (repo : RawValue) :
    resolveUpstreamPackageName
      (renameKey "downstream_package_name" "package_name" d) repo
      = resolveUpstreamPackageName d repo := by
  unfold resolveUpstreamPackageName get_deprecated_key
  rw [getD_renameKey_other (by decide) (by decide),
    getD_renameKey_other (by decide) (by decide),
    getD_renameKey_other (by decide) (by decide)]

/-- Moving the canonical `upstream_package_name` value onto either of its
legacy aliases (the document carrying no alias keys before) leaves the
upstream alias chain's result unchanged. -/
theorem resolveUpstream_first_rename (raw : List (String × RawValue)) (repo : RawValue)
    (upAlias : String)
    (hA : upAlias = "upstream_project_name" ∨ upAlias = "upstream_name")
    (h1 : RawDict.get? raw "upstream_project_name" = Option.none)
    (h2 : RawDict.get? raw "upstream_name" = Option.none) :
    resolveUpstreamPackageName (renameKey "upstream_package_name" upAlias raw) repo
      = resolveUpstreamPackageName raw repo := by
  rcases hA with hA | hA <;> subst hA <;>
    unfold resolveUpstreamPackageName get_deprecated_key
  · rw [getD_renameKey_target raw h1, getD_renameKey_gone (by decide),
      getD_renameKey_other (by decide) (by decide), getD_eq_dflt_of_absent h2,
      getD_eq_dflt_of_absent h1]
    have hnone : RawValue.none.truthy = false := rfl
    by_cases hU : (RawDict.getD raw "upstream_package_name" RawValue.none).truthy = true
    · simp [pyOr, hU, hnone]
    · rw [Bool.not_eq_true] at hU
      simp [pyOr, hU, hnone]
  · rw [getD_renameKey_target raw h2, getD_renameKey_gone (by decide),
      getD_renameKey_other (by decide) (by decide), getD_eq_dflt_of_absent h1,
      getD_eq_dflt_of_absent h2]
    have hnone : RawValue.none.truthy = false := rfl
    by_cases hU : (RawDict.getD raw "upstream_package_name" RawValue.none).truthy = true
    · simp [pyOr, hU, hnone]
    · rw [Bool.not_eq_true] at hU
      simp [pyOr, hU, hnone]

/-- Moving the canonical `downstream_package_name` value onto its legacy
`package_name` alias (the document carrying no alias keys before) leaves
the downstream alias chain's result unchanged. -/
theorem resolveDownstream_rename (raw : List (String × RawValue)) (repo : RawValue)
    (upAlias : String)
    (hA : upAlias = "upstream_project_name" ∨ upAlias = "upstream_name")
    (h3 : RawDict.get? raw "package_name" = Option.none) :
    resolveDownstreamPackageName
      (renameKey "downstream_package_name" "package_name"
        (renameKey "upstream_package_name" upAlias raw)) repo
      = resolveDownstreamPackageName raw repo := by
  have hpa : ("package_name" : String) ≠ upAlias := by
    rcases hA with h | h <;> rw [h] <;> decide
  have hda : ("downstream_package_name" : String) ≠ upAlias := by
    rcases hA with h | h <;> rw [h] <;> decide
  have habs1 : RawDict.get? (renameKey "upstream_package_name" upAlias raw)
      "package_name" = Option.none := by
    rw [get?_renameKey_other (by decide) hpa]
    exact h3
  unfold resolveDownstreamPackageName get_deprecated_key
  rw [getD_renameKey_target _ habs1, getD_renameKey_other (by decide) hda,
    getD_renameKey_gone (by decide), getD_eq_dflt_of_absent h3]
  have hnone : RawValue.none.truthy = false := rfl
  by_cases hD : (RawDict.getD raw "downstream_package_name" RawValue.none).truthy = true
  · simp [pyOr, hD, hnone]
  · rw [Bool.not_eq_true] at hD
    simp [pyOr, hD, hnone]

/-- C8: a validated raw document using only canonical keys resolves to a
configuration structurally equal to the one obtained after replacing the
canonical `upstream_package_name` key by either of its legacy aliases and
the canonical `downstream_package_name` key by its `package_name` alias,
each alias carrying the identical value. -/
theorem alias_resolution_equivalence (S : List String) (raw : RawDict)
    (cfp repo : RawValue) (upAlias : String)
    (hA : upAlias = "upstream_project_name" ∨ upAlias = "upstream_name")
    (h1 : RawDict.get? raw "upstream_project_name" = Option.none)
    (h2 : RawDict.get? raw "upstream_name" = Option.none)
    (h3 : RawDict.get? raw "package_name" = Option.none)
    (pc : PackageConfig)
    (hok : get_from_dict S raw cfp repo = Except.ok pc) :
    ∃ pc', get_from_dict S
        (renameKey "downstream_package_name" "package_name"
          (renameKey "upstream_package_name" upAlias raw)) cfp repo
        = Except.ok pc'
      ∧ PackageConfig.beq pc' pc = true := by
  have heq : get_from_dict S
      (renameKey "downstream_package_name" "package_name"
        (renameKey "upstream_package_name" upAlias raw)) cfp repo
      = get_from_dict S raw cfp repo :=
    get_from_dict_congr S raw _ cfp repo
      (getD_double_rename_other upAlias hA "synced_files" raw _
        (by decide) (by decide) (by decide) (by decide) (by decide))
      (getD_double_rename_other upAlias hA "actions" raw _
        (by decide) (by decide) (by decide) (by decide) (by decide))
      (getD_double_rename_other upAlias hA "jobs" raw _
        (by decide) (by decide) (by decide) (by decide) (by decide))
      (getD_double_rename_other upAlias hA "create_tarball_command" raw _
        (by decide) (by decide) (by decide) (by decide) (by decide))
      (getD_double_rename_other upAlias hA "current_version_command" raw _
        (by decide) (by decide) (by decide) (by decide) (by decide))
      ((resolveUpstream_second_rename _ repo).trans
        (resolveUpstream_first_rename raw repo upAlias hA h1 h2))
      (getD_double_rename_other upAlias hA "upstream_project_url" raw _
        (by decide) (by decide) (by decide) (by decide) (by decide))
      (resolveDownstream_rename raw repo upAlias hA h3)
      (getD_double_rename_other upAlias hA "specfile_path" raw _
        (by decide) (by decide) (by decide) (by decide) (by decide))
      (getD_double_rename_other upAlias hA "dist_git_base_url" raw _
        (by decide) (by decide) (by decide) (by decide) (by decide))
      (getD_double_rename_other upAlias hA "dist_git_namespace" raw _
        (by decide) (by decide) (by decide) (by decide) (by decide))
      (getD_double_rename_other upAlias hA "upstream_ref" raw _
        (by decide) (by decide) (by decide) (by decide) (by decide))
      (getD_double_rename_other upAlias hA "allowed_gpg_keys" raw _
        (by decide) (by decide) (by decide) (by decide) (by decide))
      (getD_double_rename_other upAlias hA "create_pr" raw _
        (by decide) (by decide) (by decide) (by decide) (by decide))
      (getD_double_rename_other upAlias hA "upstream_tag_template" raw _
        (by decide) (by decide) (by decide) (by decide) (by decide))
      (getD_double_rename_other upAlias hA "spec_source_id" raw _
        (by decide) (by decide) (by decide) (by decide) (by decide))
  exact ⟨pc, heq.trans hok, PackageConfig.beq_refl pc⟩

/-- A raw document carrying only canonical keys. -/
def c8raw : RawDict :=
  [("upstream_package_name", RawValue.str "up"),
    ("downstream_package_name", RawValue.str "down")]

/-- Witness for C8: the equivalence on a concrete canonical-only
document. -/
theorem alias_resolution_equivalence_witness :
    ∃ pc, get_from_dict [] c8raw RawValue.none RawValue.none = Except.ok pc
      ∧ ∃ pc', get_from_dict []
          (renameKey "downstream_package_name" "package_name"
            (renameKey "upstream_package_name" "upstream_project_name" c8raw))
          RawValue.none RawValue.none = Except.ok pc'
        ∧ PackageConfig.beq pc' pc = true := by
  have h0 : exceptIsOk (get_from_dict [] c8raw RawValue.none RawValue.none) = true := by
    decide
  cases hok : get_from_dict [] c8raw RawValue.none RawValue.none with
  | error e => rw [hok] at h0; exact absurd h0 (by simp [exceptIsOk])
  | ok pc =>
      exact ⟨pc, rfl, alias_resolution_equivalence [] c8raw RawValue.none RawValue.none
        "upstream_project_name" (Or.inl rfl) (by decide) (by decide) (by decide) pc hok⟩

/-- Exhausting every local (directory, filename) probe raises the
not-found error. -/
theorem probeLocal_all_absent (S : List String) (isFile : String → Bool)
    (loadFile : String → Except ConfigError RawDict) (repo : RawValue)
    (pairs : List (String × String))
    (h : ∀ p ∈ pairs, isFile (joinPath p.1 p.2) = false) :
    probeLocal S isFile loadFile repo pairs
      = Except.error (ConfigError.notFound "No packit config found.") := by
  induction pairs with
  | nil => rfl
  | cons p rest ih =>
      cases p with
      | mk d n =>
          have hd := h (d, n) (List.mem_cons_self (d, n) rest)
          simp only [probeLocal, hd, Bool.false_eq_true, if_false]
          exact ih fun q hq => h q (List.mem_cons_of_mem _ hq)

/-- Exhausting every remote filename probe returns the explicit
no-configuration value. -/
theorem probeRemote_all_absent (S : List String) (fetch : String → FetchResult)
    (repo : RawValue) (names : List String)
    (h : ∀ n ∈ names, fetch n = FetchResult.notFound) :
    probeRemote S fetch repo names = Except.ok Option.none := by
  induction names with
  | nil => rfl
  | cons n rest ih =>
      have hn := h n (List.mem_cons_self n rest)
      simp only [probeRemote, hn]
      exact ih fun q hq => h q (List.mem_cons_of_mem _ hq)

/-- C9: when no recognized filename exists in any candidate directory the
local lookup fails with the not-found error, whereas when no recognized
filename exists on the remote reference the remote lookup returns the
explicit no-configuration-present value instead of an error; and in the
remote loop a per-file not-found outcome is non-fatal, advancing to the
next recognized filename. -/
theorem lookup_absence_asymmetry (S : List String) (isFile : String → Bool)
    (loadFile : String → Except ConfigError RawDict) (cwd : String)
    (dirs : List String) (repo : RawValue) ( try_first try_last : Bool)
    (fetch : String → FetchResult) :
    ((∀ d n, n ∈ CONFIG_FILE_NAMES → isFile (joinPath d n) = false) →
      get_local_package_config S isFile loadFile cwd dirs repo try_first try_last
        = Except.error (ConfigError.notFound "No packit config found."))
    ∧ ((∀ n, n ∈ CONFIG_FILE_NAMES → fetch n = FetchResult.notFound) →
      get_package_config_from_repo S fetch repo = Except.ok Option.none)
    ∧ (∀ name rest, fetch name = FetchResult.notFound →
      probeRemote S fetch repo (name :: rest) = probeRemote S fetch repo rest) := by
  refine ⟨fun h => ?_, fun h => ?_, fun name rest h => ?_⟩
  · unfold get_local_package_config
    apply probeLocal_all_absent
    intro p hp
    rcases List.mem_flatMap.1 hp with ⟨d, hd, hpn⟩
    rcases List.mem_map.1 hpn with ⟨n, hn, hpe⟩
    rw [← hpe]
    exact h d n hn
  · unfold get_package_config_from_repo
    exact probeRemote_all_absent S fetch repo CONFIG_FILE_NAMES h
  · simp only [probeRemote, h]

/-- Witness for C9: concrete empty filesystem and all-absent remote. -/
theorem lookup_absence_asymmetry_witness :
    get_local_package_config [] (fun _ => false)
        (fun _ => Except.ok ([] : List (String × RawValue))) "/cwd" ["/d"]
        RawValue.none true false
      = Except.error (ConfigError.notFound "No packit config found.")
    ∧ get_package_config_from_repo [] (fun _ => FetchResult.notFound) RawValue.none
      = Except.ok Option.none
    ∧ probeRemote [] (fun _ => FetchResult.notFound) RawValue.none
        (".packit.yaml" :: [".packit.yml"])
      = probeRemote [] (fun _ => FetchResult.notFound) RawValue.none [".packit.yml"] :=
  ⟨(lookup_absence_asymmetry [] (fun _ => false)
      (fun _ => Except.ok ([] : List (String × RawValue))) "/cwd" ["/d"]
      RawValue.none true false (fun _ => FetchResult.notFound)).1
      (fun _ _ _ => rfl),
   (lookup_absence_asymmetry [] (fun _ => false)
      (fun _ => Except.ok ([] : List (String × RawValue))) "/cwd" ["/d"]
      RawValue.none true false (fun _ => FetchResult.notFound)).2.1
      (fun _ _ => rfl),
   (lookup_absence_asymmetry [] (fun _ => false)
      (fun _ => Except.ok ([] : List (String × RawValue))) "/cwd" ["/d"]
      RawValue.none true false (fun _ => FetchResult.notFound)).2.2
      ".packit.yaml" [".packit.yml"] rfl⟩

end Packit
